import Mathlib

/-!
# Shallow embedding of the Tax Loss Harvesting Tracker core

This file embeds the entry/attachment store of `src/database.py` and the
store-facing parts of `src/app.py`.

Modelling conventions:

* Dates are proleptic Gregorian ordinal day numbers, exactly as Python's
  `datetime.date.toordinal`: ordinal 1 is 0001-01-01, a Monday.  The code
  stores dates as zero-padded ISO `YYYY-MM-DD` strings and compares them with
  SQL `<=` / `>` / `=` / `BETWEEN`; on such strings lexicographic order agrees
  with chronological order, so those comparisons are modelled as `≤`, `<`, `=`
  on ordinals.
* The SQLite table is modelled as a list of rows in rowid order; `INSERT`
  appends, `UPDATE ... WHERE id = ?` maps over the list touching the matching
  rows, `DELETE ... WHERE` filters, and `SELECT ... ORDER BY k` is a stable
  sort by `k` over rowid order (`List.insertionSort` with a non-strict key
  relation is stable), which is how SQLite evaluates these queries via the
  `idx_target_date` index.
* `created_at` / `updated_at` bookkeeping timestamps and attachment
  `uploaded_at` are omitted: no claim concerns them.  `datetime.now()` is
  passed in explicitly as a `today : Nat` parameter.
* Python `str.upper()` and `str.strip()` are modelled by the list-based
  `upper` and `strip` below (the inputs in scope are ASCII).
-/

/-- Python `str.upper()`: uppercase every character (ASCII; Lean's
`Char.toUpper` over the string's characters). -/
def upper (s : String) : String := ⟨s.data.map Char.toUpper⟩

/-- Python `str.strip()`: remove leading and trailing whitespace. -/
def strip (s : String) : String :=
  ⟨((s.data.dropWhile Char.isWhitespace).reverse.dropWhile Char.isWhitespace).reverse⟩

/-- Python `datetime.weekday()` on an ordinal day number: Monday = 0 …
Sunday = 6.  Ordinal 1 (0001-01-01) is a Monday, so the weekday of ordinal
`n` is `(n + 6) % 7`. -/
def weekday (n : Nat) : Nat := (n + 6) % 7

/-- `database.adjust_for_weekend` (database.py lines 91-98): move a date that
falls on a Saturday (weekday 5) forward 2 days and one on a Sunday
(weekday 6) forward 1 day; otherwise return it unchanged. -/
def adjust_for_weekend (n : Nat) : Nat :=
  if weekday n = 5 then n + 2
  else if weekday n = 6 then n + 1
  else n

/-- The target-date computation shared by `add_entry` (database.py lines
116-118) and `update_entry` (lines 270-272): `sell_date + 31 days`, then
`adjust_for_weekend`. -/
def computeTargetDate (sell_date : Nat) : Nat :=
  adjust_for_weekend (sell_date + 31)

/-- A row of the `entries` table (database.py lines 35-65).  `completed` is
the `INTEGER` flag read as a boolean, `completed_date` is a nullable date,
`status` is the `TEXT` workflow column. -/
structure Entry where
  id : Nat
  account : String
  tickers : String
  held_in : String
  broker : String
  sell_date : Nat
  target_date : Nat
  comments : String
  completed : Bool
  completed_date : Option Nat
  status : String
deriving Repr, DecidableEq

/-- A row of the `attachments` table (database.py lines 75-85).  `file_data`
is the base64-encoded `TEXT` column, kept as the stored character list. -/
structure Attachment where
  id : Nat
  entry_id : Nat
  filename : String
  file_type : String
  file_data : List Char
deriving Repr, DecidableEq

/-- The SQLite database: both tables in rowid order plus the AUTOINCREMENT
counters that produce `cursor.lastrowid`. -/
structure DB where
  entries : List Entry
  attachments : List Attachment
  nextEntryId : Nat
  nextAttachmentId : Nat
deriving Repr, DecidableEq

/-- The freshly initialised database (`init_database` creates empty tables). -/
def emptyDB : DB :=
  { entries := [], attachments := [], nextEntryId := 1, nextAttachmentId := 1 }

/-- `get_connection` (database.py lines 16-29) runs only
`PRAGMA journal_mode=WAL` on each connection; it never issues
`PRAGMA foreign_keys=ON`, and SQLite leaves foreign-key enforcement OFF by
default, so the `FOREIGN KEY ... ON DELETE CASCADE` clause declared on
`attachments` (line 83) is inert on every connection the program opens. -/
def foreign_keys_enabled : Bool := false

/-- The row inserted by `add_entry` (database.py lines 122-125): the listed
columns are given explicitly, while `completed`, `completed_date` and
`status` take their schema defaults `0`, `NULL`, `'pending'`. -/
def add_entry_row (id : Nat) (account tickers held_in : String) (sell_date : Nat)
    (broker comments : String) : Entry :=
  { id := id
    account := account
    tickers := upper tickers
    held_in := upper held_in
    broker := broker
    sell_date := sell_date
    target_date := computeTargetDate sell_date
    comments := comments
    completed := false
    completed_date := none
    status := "pending" }

/-- `database.add_entry` (lines 101-126): compute the target date, insert the
new row, return `cursor.lastrowid` together with the updated database. -/
def add_entry (db : DB) (account tickers held_in : String) (sell_date : Nat)
    (broker comments : String) : Nat × DB :=
  (db.nextEntryId,
   { db with
       entries :=
         db.entries ++ [add_entry_row db.nextEntryId account tickers held_in
           sell_date broker comments]
       nextEntryId := db.nextEntryId + 1 })

/-- Sort key of `ORDER BY target_date ASC` (non-strict, so the stable sort
leaves rowid order among ties). -/
def tdLe (a b : Entry) : Prop := a.target_date ≤ b.target_date

instance : DecidableRel tdLe := fun a b => Nat.decLe a.target_date b.target_date

instance : IsTotal Entry tdLe := ⟨fun a b => Nat.le_total a.target_date b.target_date⟩

instance : IsTrans Entry tdLe := ⟨fun _ _ _ h1 h2 => Nat.le_trans h1 h2⟩

/-- SQLite compares `TEXT` values with `memcmp` (BINARY collation); on the
ASCII data in scope that is lexicographic order on the character codes. -/
def charListLeb : List Char → List Char → Bool
  | [], _ => true
  | _ :: _, [] => false
  | a :: as, b :: bs =>
      if a.toNat < b.toNat then true
      else if b.toNat < a.toNat then false
      else charListLeb as bs

theorem charListLeb_total :
    ∀ as bs, charListLeb as bs = true ∨ charListLeb bs as = true
  | [], _ => Or.inl rfl
  | _ :: _, [] => Or.inr rfl
  | a :: as, b :: bs => by
      simp only [charListLeb]
      rcases Nat.lt_trichotomy a.toNat b.toNat with h | h | h
      · left
        rw [if_pos h]
      · rw [if_neg (by omega), if_neg (by omega), if_neg (by omega), if_neg (by omega)]
        exact charListLeb_total as bs
      · right
        rw [if_pos h]

theorem charListLeb_trans :
    ∀ as bs cs, charListLeb as bs = true → charListLeb bs cs = true →
      charListLeb as cs = true
  | [], _, _, _, _ => rfl
  | a :: as, b :: bs, [], _, hbc => by
      simp [charListLeb] at hbc
  | a :: as, [], cs, hab, _ => by
      simp [charListLeb] at hab
  | a :: as, b :: bs, c :: cs, hab, hbc => by
      simp only [charListLeb] at hab hbc ⊢
      split_ifs at hab hbc ⊢ <;> try omega
      all_goals first
        | rfl
        | exact charListLeb_trans as bs cs hab hbc

/-- SQL `account <= account` on the stored strings. -/
def sqlLe (a b : String) : Prop := charListLeb a.data b.data = true

instance : DecidableRel sqlLe := fun a b =>
  inferInstanceAs (Decidable (charListLeb a.data b.data = true))

/-- Sort key of `ORDER BY target_date ASC, account ASC`. -/
def tdAccLe (a b : Entry) : Prop :=
  a.target_date < b.target_date ∨
    (a.target_date = b.target_date ∧ sqlLe a.account b.account)

instance : DecidableRel tdAccLe := fun a b => by
  unfold tdAccLe; infer_instance

instance : IsTotal Entry tdAccLe := by
  constructor
  intro a b
  unfold tdAccLe
  rcases Nat.lt_trichotomy a.target_date b.target_date with h | h | h
  · exact Or.inl (Or.inl h)
  · rcases charListLeb_total a.account.data b.account.data with h2 | h2
    · exact Or.inl (Or.inr ⟨h, h2⟩)
    · exact Or.inr (Or.inr ⟨h.symm, h2⟩)
  · exact Or.inr (Or.inl h)

instance : IsTrans Entry tdAccLe := by
  constructor
  intro a b c hab hbc
  unfold tdAccLe at hab hbc ⊢
  rcases hab with h1 | ⟨h1, h1a⟩
  · rcases hbc with h2 | ⟨h2, _⟩
    · exact Or.inl (h1.trans h2)
    · exact Or.inl (h2 ▸ h1)
  · rcases hbc with h2 | ⟨h2, h2a⟩
    · exact Or.inl (h1 ▸ h2)
    · exact Or.inr ⟨h1.trans h2, charListLeb_trans _ _ _ h1a h2a⟩

/-- Descending SQLite order on a nullable date column: SQLite treats `NULL`
as smaller than every value, so in descending order `NULL` rows come last. -/
def sqliteDescLe : Option Nat → Option Nat → Prop
  | none, none => True
  | some _, none => True
  | none, some _ => False
  | some a, some b => b ≤ a

instance : DecidableRel sqliteDescLe
  | none, none => isTrue trivial
  | some _, none => isTrue trivial
  | none, some _ => isFalse fun h => h
  | some a, some b => Nat.decLe b a

theorem sqliteDescLe_total : ∀ x y, sqliteDescLe x y ∨ sqliteDescLe y x
  | none, none => Or.inl trivial
  | some _, none => Or.inl trivial
  | none, some _ => Or.inr trivial
  | some a, some b => (Nat.le_total b a).imp id id

theorem sqliteDescLe_trans :
    ∀ x y z, sqliteDescLe x y → sqliteDescLe y z → sqliteDescLe x z
  | none, _, none, _, _ => trivial
  | some _, _, none, _, _ => trivial
  | none, some _, some _, hab, _ => absurd hab fun h => h
  | none, none, some _, _, hbc => absurd hbc fun h => h
  | some _, none, some _, _, hbc => absurd hbc fun h => h
  | some _, some _, some _, hab, hbc => Nat.le_trans hbc hab

/-- Sort key of `ORDER BY completed_date DESC`. -/
def cdDescLe (a b : Entry) : Prop :=
  sqliteDescLe a.completed_date b.completed_date

instance : DecidableRel cdDescLe := fun a b =>
  inferInstanceAs (Decidable (sqliteDescLe a.completed_date b.completed_date))

instance : IsTotal Entry cdDescLe :=
  ⟨fun a b => sqliteDescLe_total a.completed_date b.completed_date⟩

instance : IsTrans Entry cdDescLe :=
  ⟨fun _ _ _ h1 h2 => sqliteDescLe_trans _ _ _ h1 h2⟩

/-- `database.get_all_entries` (lines 129-136):
`SELECT * FROM entries ORDER BY target_date ASC, account ASC`. -/
def get_all_entries (db : DB) : List Entry :=
  List.insertionSort tdAccLe db.entries

/-- `database.get_entries_by_status` (lines 139-187), with `datetime.now()`
passed in as `today`.  Each branch is the corresponding `WHERE` filter
followed by its `ORDER BY` sort; any string other than the five named
filters takes the `else` (\x22all\x22) branch. -/
def get_entries_by_status (db : DB) (today : Nat) (status : String) : List Entry :=
  if status = "completed" then
    List.insertionSort cdDescLe (db.entries.filter (fun e => e.status = "completed"))
  else if status = "waiting" then
    List.insertionSort tdLe
      (db.entries.filter (fun e => decide (e.status ≠ "completed") && decide (today < e.target_date)))
  else if status = "ready" then
    List.insertionSort tdLe
      (db.entries.filter (fun e => decide (e.status ≠ "completed") && decide (e.target_date ≤ today)))
  else if status = "pending" then
    List.insertionSort tdLe (db.entries.filter (fun e => e.status = "pending"))
  else if status = "in_progress" then
    List.insertionSort tdLe (db.entries.filter (fun e => e.status = "in_progress"))
  else
    List.insertionSort tdLe db.entries

/-- `database.mark_completed` (lines 214-224): one `UPDATE` setting
`completed`, `completed_date` and `status` together on the matching row. -/
def mark_completed (db : DB) (entry_id : Nat) (completed : Bool) (today : Nat) : DB :=
  { db with
      entries := db.entries.map (fun e =>
        if e.id = entry_id then
          { e with
              completed := completed
              completed_date := if completed then some today else none
              status := if completed then "completed" else "pending" }
        else e) }

/-- The successor status in `cycle_status`'s three-way branch
(database.py lines 238-249). -/
def next_status (current : String) : String :=
  if current = "pending" then "in_progress"
  else if current = "in_progress" then "completed"
  else "pending"

/-- `database.cycle_status` (lines 227-257): read the current status
(`'pending'` when the row is missing or its status column is falsy), step it,
write back `status`/`completed`/`completed_date` in one `UPDATE`, and return
the new status. -/
def cycle_status (db : DB) (entry_id : Nat) (today : Nat) : String × DB :=
  let current :=
    match db.entries.find? (fun e => e.id = entry_id) with
    | some e => if e.status = "" then "pending" else e.status
    | none => "pending"
  let new := next_status current
  (new,
   { db with
       entries := db.entries.map (fun e =>
         if e.id = entry_id then
           { e with
               status := new
               completed := new = "completed"
               completed_date := if new = "completed" then some today else none }
         else e) })

/-- `database.get_entry_status` (lines 260-264). -/
def get_entry_status (db : DB) (entry_id : Nat) : String :=
  match db.entries.find? (fun e => e.id = entry_id) with
  | some e => if e.status = "" then "pending" else e.status
  | none => "pending"

/-- `database.update_entry` (lines 267-281): recompute the target date and
`UPDATE` the listed columns on the matching row; `status`, `completed` and
`completed_date` are not touched. -/
def update_entry (db : DB) (entry_id : Nat) (account tickers held_in : String)
    (sell_date : Nat) (broker comments : String) : DB :=
  { db with
      entries := db.entries.map (fun e =>
        if e.id = entry_id then
          { e with
              account := account
              tickers := upper tickers
              held_in := upper held_in
              broker := broker
              sell_date := sell_date
              target_date := computeTargetDate sell_date
              comments := comments }
        else e) }

/-- `database.delete_entry` (lines 284-287): `DELETE FROM entries WHERE
id = ?`.  The declared `ON DELETE CASCADE` on `attachments` would also remove
the entry's attachments, but only when foreign-key enforcement is on, which
it never is (see `foreign_keys_enabled`). -/
def delete_entry (db : DB) (entry_id : Nat) : DB :=
  let db1 := { db with entries := db.entries.filter (fun e => ¬ e.id = entry_id) }
  if foreign_keys_enabled then
    { db1 with
        attachments := db1.attachments.filter (fun a => ¬ a.entry_id = entry_id) }
  else db1

/-- The base64 alphabet used by `base64.b64encode` (RFC 4648). -/
def b64Alphabet : List Char :=
  "ABCDEFGHIJKLMNOPQRSTUVWXYZabcdefghijklmnopqrstuvwxyz0123456789+/".toList

/-- Character encoding one six-bit group. -/
def sextetToChar (n : Nat) : Char := b64Alphabet.getD n 'A'

/-- Index of a character in the base64 alphabet (`base64.b64decode`'s
table lookup). -/
def charToSextet (c : Char) : Nat := b64Alphabet.indexOf c

/-- `base64.b64encode` on a byte list (bytes are `Nat` values below 256),
producing the encoded text: each group of 3 bytes becomes 4 alphabet
characters, a trailing group of 2 or 1 bytes is padded with `=`. -/
def b64encode : List Nat → List Char
  | b1 :: b2 :: b3 :: rest =>
      sextetToChar (b1 / 4) ::
      sextetToChar (b1 % 4 * 16 + b2 / 16) ::
      sextetToChar (b2 % 16 * 4 + b3 / 64) ::
      sextetToChar (b3 % 64) :: b64encode rest
  | [b1, b2] =>
      [sextetToChar (b1 / 4), sextetToChar (b1 % 4 * 16 + b2 / 16),
       sextetToChar (b2 % 16 * 4), '=']
  | [b1] =>
      [sextetToChar (b1 / 4), sextetToChar (b1 % 4 * 16), '=', '=']
  | [] => []

/-- `base64.b64decode` on encoded text: each group of 4 characters yields 3
bytes, with `=` padding signalling a short final group. -/
def b64decode : List Char → List Nat
  | c1 :: c2 :: c3 :: c4 :: rest =>
      if c4 = '=' then
        if c3 = '=' then
          [charToSextet c1 * 4 + charToSextet c2 / 16]
        else
          [charToSextet c1 * 4 + charToSextet c2 / 16,
           charToSextet c2 % 16 * 16 + charToSextet c3 / 4]
      else
        (charToSextet c1 * 4 + charToSextet c2 / 16) ::
        (charToSextet c2 % 16 * 16 + charToSextet c3 / 4) ::
        (charToSextet c3 % 4 * 64 + charToSextet c4) :: b64decode rest
  | _ => []

/-- `database.add_attachment` (lines 375-395): base64-encode the payload,
insert the row, return `cursor.lastrowid` with the updated database.  No
check of any kind is made on `entry_id`. -/
def add_attachment (db : DB) (entry_id : Nat) (filename file_type : String)
    (file_data : List Nat) : Nat × DB :=
  (db.nextAttachmentId,
   { db with
       attachments :=
         db.attachments ++
           [{ id := db.nextAttachmentId
              entry_id := entry_id
              filename := filename
              file_type := file_type
              file_data := b64encode file_data }]
       nextAttachmentId := db.nextAttachmentId + 1 })

/-- `database.get_attachments` (lines 398-406): metadata rows of one entry's
attachments.  The `ORDER BY uploaded_at DESC` clause is not modelled
(timestamps are omitted; no claim concerns attachment listing order). -/
def get_attachments (db : DB) (entry_id : Nat) : List Attachment :=
  db.attachments.filter (fun a => a.entry_id = entry_id)

/-- `database.get_attachment_count` (lines 409-415). -/
def get_attachment_count (db : DB) (entry_id : Nat) : Nat :=
  (db.attachments.filter (fun a => a.entry_id = entry_id)).length

/-- `database.get_attachment_data` (lines 418-432): look the row up by id and
base64-decode the payload; `(None, None, None)` when absent is modelled as
`none`. -/
def get_attachment_data (db : DB) (attachment_id : Nat) :
    Option (String × String × List Nat) :=
  match db.attachments.find? (fun a => a.id = attachment_id) with
  | some a => some (a.filename, a.file_type, b64decode a.file_data)
  | none => none

/-- `database.delete_attachment` (lines 435-438). -/
def delete_attachment (db : DB) (attachment_id : Nat) : DB :=
  { db with attachments := db.attachments.filter (fun a => ¬ a.id = attachment_id) }

/-- `database.delete_attachments_for_entry` (lines 441-444). -/
def delete_attachments_for_entry (db : DB) (entry_id : Nat) : DB :=
  { db with attachments := db.attachments.filter (fun a => ¬ a.entry_id = entry_id) }

/-- The submit branch of the new-entry form in `app.main` (app.py lines
487-499): if any of the four required raw inputs is empty (Python string
truthiness) an error is shown and the store is not touched; otherwise
`db.add_entry` is called with the text inputs stripped. -/
def app_submit (db : DB) (account tickers held_in : String) (sell_date : Nat)
    (broker comments : String) : Option Nat × DB :=
  if account = "" ∨ tickers = "" ∨ held_in = "" ∨ broker = "" then
    (none, db)
  else
    let r := add_entry db (strip account) (strip tickers) (strip held_in) sell_date
      broker (strip comments)
    (some r.1, r.2)

/-- The same submit branch when a file was uploaded (app.py lines 487-517):
after the entry is inserted, the attachment is stored only when the payload
is at most 5 MiB, always against the id just returned by `add_entry`. -/
def app_submit_with_file (db : DB) (account tickers held_in : String)
    (sell_date : Nat) (broker comments filename file_type : String)
    (file_data : List Nat) : Option Nat × DB :=
  if account = "" ∨ tickers = "" ∨ held_in = "" ∨ broker = "" then
    (none, db)
  else
    let r := add_entry db (strip account) (strip tickers) (strip held_in) sell_date
      broker (strip comments)
    if file_data.length ≤ 5 * 1024 * 1024 then
      (some r.1, (add_attachment r.2 r.1 filename file_type file_data).2)
    else
      (some r.1, r.2)

/-- The `SELECT ... WHERE id = ?` row lookup used by `cycle_status` and
`get_entry_status` (first matching row in rowid order). -/
def lookup (db : DB) (entry_id : Nat) : Option Entry :=
  db.entries.find? (fun e => e.id = entry_id)

/-- Invariant 2 of the spec: the three completion fields of a row agree. -/
def completion_consistent (e : Entry) : Prop :=
  (e.status = "completed" ↔ e.completed = true) ∧
    (e.completed = true ↔ e.completed_date ≠ none)

instance : DecidablePred completion_consistent := fun e => by
  unfold completion_consistent
  infer_instance

/-! ## Helper lemmas -/

theorem charToSextet_sextetToChar_fin :
    ∀ n : Fin 64, charToSextet (sextetToChar n.val) = n.val := by decide

theorem charToSextet_sextetToChar {n : Nat} (h : n < 64) :
    charToSextet (sextetToChar n) = n :=
  charToSextet_sextetToChar_fin ⟨n, h⟩

theorem sextetToChar_ne_pad_fin : ∀ n : Fin 64, sextetToChar n.val ≠ '=' := by decide

theorem sextetToChar_ne_pad {n : Nat} (h : n < 64) : sextetToChar n ≠ '=' :=
  sextetToChar_ne_pad_fin ⟨n, h⟩

/-- Decoding inverts encoding on genuine byte lists. -/
theorem b64decode_b64encode :
    ∀ l : List Nat, (∀ b ∈ l, b < 256) → b64decode (b64encode l) = l
  | [], _ => rfl
  | [b1], h => by
      have h1 : b1 < 256 := h b1 (by simp)
      show b64decode [sextetToChar (b1 / 4), sextetToChar (b1 % 4 * 16), '=', '='] = [b1]
      simp only [b64decode, if_pos]
      rw [charToSextet_sextetToChar (show b1 / 4 < 64 by omega),
          charToSextet_sextetToChar (show b1 % 4 * 16 < 64 by omega)]
      congr 1
      omega
  | [b1, b2], h => by
      have h1 : b1 < 256 := h b1 (by simp)
      have h2 : b2 < 256 := h b2 (by simp)
      show b64decode [sextetToChar (b1 / 4), sextetToChar (b1 % 4 * 16 + b2 / 16),
        sextetToChar (b2 % 16 * 4), '='] = [b1, b2]
      simp only [b64decode, if_pos,
        if_neg (sextetToChar_ne_pad (show b2 % 16 * 4 < 64 by omega))]
      rw [charToSextet_sextetToChar (show b1 / 4 < 64 by omega),
          charToSextet_sextetToChar (show b1 % 4 * 16 + b2 / 16 < 64 by omega),
          charToSextet_sextetToChar (show b2 % 16 * 4 < 64 by omega)]
      congr 1
      · omega
      · congr 1
        omega
  | b1 :: b2 :: b3 :: rest, h => by
      have h1 : b1 < 256 := h b1 (by simp)
      have h2 : b2 < 256 := h b2 (by simp)
      have h3 : b3 < 256 := h b3 (by simp)
      have ih := b64decode_b64encode rest (fun b hb => h b (by simp [hb]))
      show b64decode (sextetToChar (b1 / 4) :: sextetToChar (b1 % 4 * 16 + b2 / 16) ::
        sextetToChar (b2 % 16 * 4 + b3 / 64) :: sextetToChar (b3 % 64) ::
        b64encode rest) = b1 :: b2 :: b3 :: rest
      simp only [b64decode, if_neg (sextetToChar_ne_pad (show b3 % 64 < 64 by omega))]
      rw [charToSextet_sextetToChar (show b1 / 4 < 64 by omega),
          charToSextet_sextetToChar (show b1 % 4 * 16 + b2 / 16 < 64 by omega),
          charToSextet_sextetToChar (show b2 % 16 * 4 + b3 / 64 < 64 by omega),
          charToSextet_sextetToChar (show b3 % 64 < 64 by omega), ih]
      congr 1
      · omega
      · congr 1
        · omega
        · congr 1
          omega

/-! ## Claims -/

/-- C1: for every well-formed sell date `d`, the `target_date` stored by
`add_entry` (on the freshly inserted row) and by `update_entry` (on the
updated row) is `computeTargetDate d`, which equals `d + 31` when `d + 31`
falls on Monday-Friday, `d + 33` when `d + 31` is a Saturday and `d + 32`
when it is a Sunday, and consequently never falls on a Saturday or Sunday. -/
theorem C1_target_date_law (db : DB) (account tickers held_in broker comments : String)
    (entry_id d : Nat) :
    (add_entry db account tickers held_in d broker comments).2.entries.getLast? =
      some (add_entry_row db.nextEntryId account tickers held_in d broker comments) ∧
    (add_entry_row db.nextEntryId account tickers held_in d broker comments).target_date =
      computeTargetDate d ∧
    (∀ e ∈ (update_entry db entry_id account tickers held_in d broker comments).entries,
      e.id = entry_id → e.target_date = computeTargetDate d) ∧
    (weekday (d + 31) < 5 → computeTargetDate d = d + 31) ∧
    (weekday (d + 31) = 5 → computeTargetDate d = d + 33) ∧
    (weekday (d + 31) = 6 → computeTargetDate d = d + 32) ∧
    weekday (computeTargetDate d) ≠ 5 ∧ weekday (computeTargetDate d) ≠ 6 := by
  refine ⟨?_, rfl, ?_, ?_, ?_, ?_, ?_, ?_⟩
  · simp [add_entry]
  · intro e he hid
    simp only [update_entry, List.mem_map] at he
    obtain ⟨e0, _, rfl⟩ := he
    by_cases h : e0.id = entry_id
    · simp [h]
    · rw [if_neg h] at hid ⊢
      exact absurd hid h
  · intro h
    unfold computeTargetDate adjust_for_weekend weekday at *
    split_ifs <;> omega
  · intro h
    unfold computeTargetDate adjust_for_weekend weekday at *
    split_ifs <;> omega
  · intro h
    unfold computeTargetDate adjust_for_weekend weekday at *
    split_ifs <;> omega
  · unfold computeTargetDate adjust_for_weekend weekday
    split_ifs <;> omega
  · unfold computeTargetDate adjust_for_weekend weekday
    split_ifs <;> omega

/-- Witness for C1 at concrete inputs: sell date ordinal 3 (a Wednesday, so
ordinal 34 = 3+31 is a Saturday, shifted to 36), exercising both the
Saturday branch and the `update_entry` conjunct on a one-entry store. -/
theorem C1_target_date_law_witness :
    weekday (3 + 31) = 5 ∧
    computeTargetDate 3 = 3 + 33 ∧
    (add_entry_row 1 "A" "SPY" "CASH" 3 "UBS" "").target_date = 36 := by
  have h := C1_target_date_law emptyDB "A" "SPY" "CASH" "UBS" "" 1 3
  have h5 : computeTargetDate 3 = 3 + 33 := h.2.2.2.2.1 (by decide)
  exact ⟨by decide, h5, h.2.1.trans (h5.trans (by norm_num))⟩

/-- C9: an attachment payload round-trips byte-for-byte: after
`add_attachment` stores the base64-encoded bytes, `get_attachment_data` on
the returned id decodes them back to exactly the original filename, MIME
type and bytes (assuming the AUTOINCREMENT counter is fresh, as SQLite
guarantees). -/
theorem C9_attachment_roundtrip (db : DB) (entry_id : Nat) (filename file_type : String)
    (file_data : List Nat) (hbytes : ∀ b ∈ file_data, b < 256)
    (hfresh : ∀ a ∈ db.attachments, a.id ≠ db.nextAttachmentId) :
    get_attachment_data (add_attachment db entry_id filename file_type file_data).2
        (add_attachment db entry_id filename file_type file_data).1 =
      some (filename, file_type, file_data) := by
  unfold get_attachment_data add_attachment
  simp only [List.find?_append]
  have hnone : db.attachments.find? (fun a => a.id = db.nextAttachmentId) = none := by
    rw [List.find?_eq_none]
    intro a ha
    simpa using hfresh a ha
  rw [hnone]
  simp [b64decode_b64encode file_data hbytes]

/-- Witness for C9: a concrete three-byte payload stored on the empty
database round-trips. -/
theorem C9_attachment_roundtrip_witness :
    get_attachment_data
        (add_attachment emptyDB 1 "conf.pdf" "application/pdf" [0, 255, 77]).2
        (add_attachment emptyDB 1 "conf.pdf" "application/pdf" [0, 255, 77]).1 =
      some ("conf.pdf", "application/pdf", [0, 255, 77]) :=
  C9_attachment_roundtrip emptyDB 1 "conf.pdf" "application/pdf" [0, 255, 77]
    (by decide) (by simp [emptyDB])

/-- C10: `delete_entry` removes only the entries row.  Foreign-key
enforcement is never enabled (`foreign_keys_enabled = false`), so the
declared `ON DELETE CASCADE` has no effect: every attachment survives the
entry's deletion and stays retrievable via `get_attachments` and
`get_attachment_data`; attachments are removed only by the explicit
`delete_attachment` / `delete_attachments_for_entry` calls. -/
theorem C10_delete_frame (db : DB) (entry_id attachment_id query_id : Nat) :
    foreign_keys_enabled = false ∧
    (delete_entry db entry_id).entries = db.entries.filter (fun e => ¬ e.id = entry_id) ∧
    (delete_entry db entry_id).attachments = db.attachments ∧
    get_attachments (delete_entry db entry_id) query_id = get_attachments db query_id ∧
    get_attachment_data (delete_entry db entry_id) attachment_id =
      get_attachment_data db attachment_id ∧
    (delete_attachment db attachment_id).attachments =
      db.attachments.filter (fun a => ¬ a.id = attachment_id) ∧
    (delete_attachments_for_entry db entry_id).attachments =
      db.attachments.filter (fun a => ¬ a.entry_id = entry_id) := by
  refine ⟨rfl, ?_, ?_, ?_, ?_, rfl, rfl⟩
  all_goals
    simp [delete_entry, foreign_keys_enabled, get_attachments, get_attachment_data]

/-- C2: the three completion fields (`status`, `completed`, `completed_date`)
agree on every entry after each mutating store operation, provided they
agreed before (they do on every reachable state, since `add_entry` creates
consistent rows and the other operations preserve consistency). -/
theorem C2_completion_invariant (db : DB)
    (hinv : ∀ e ∈ db.entries, completion_consistent e)
    (account tickers held_in broker comments : String) (d today entry_id : Nat)
    (c : Bool) :
    (∀ e ∈ (add_entry db account tickers held_in d broker comments).2.entries,
      completion_consistent e) ∧
    (∀ e ∈ (update_entry db entry_id account tickers held_in d broker comments).entries,
      completion_consistent e) ∧
    (∀ e ∈ (mark_completed db entry_id c today).entries, completion_consistent e) ∧
    (∀ e ∈ (cycle_status db entry_id today).2.entries, completion_consistent e) := by
  refine ⟨?_, ?_, ?_, ?_⟩
  · intro e he
    simp only [add_entry, List.mem_append, List.mem_singleton] at he
    rcases he with he | rfl
    · exact hinv e he
    · simp [completion_consistent, add_entry_row]
  · intro e he
    simp only [update_entry, List.mem_map] at he
    obtain ⟨e0, he0, rfl⟩ := he
    by_cases h : e0.id = entry_id
    · have := hinv e0 he0
      simp only [completion_consistent] at this ⊢
      simpa [h] using this
    · simpa [h] using hinv e0 he0
  · intro e he
    simp only [mark_completed, List.mem_map] at he
    obtain ⟨e0, he0, rfl⟩ := he
    by_cases h : e0.id = entry_id
    · rcases c with _ | _ <;> simp [completion_consistent, h]
    · simpa [h] using hinv e0 he0
  · intro e he
    simp only [cycle_status, List.mem_map] at he
    obtain ⟨e0, he0, rfl⟩ := he
    by_cases h : e0.id = entry_id
    · by_cases hc :
        next_status (match lookup db entry_id with
          | some e => if e.status = "" then "pending" else e.status
          | none => "pending") = "completed" <;>
        simp [completion_consistent, h, lookup, hc]
    · simpa [h] using hinv e0 he0

/-- Witness for C2: on a one-entry store built by `add_entry`, the entry
produced by `mark_completed id true` has all three completion fields in
agreement. -/
theorem C2_completion_invariant_witness :
    completion_consistent
      { id := 1, account := "A", tickers := "SPY", held_in := "CASH", broker := "UBS",
        sell_date := 100, target_date := computeTargetDate 100, comments := "",
        completed := true, completed_date := some 200, status := "completed" } := by
  have h := C2_completion_invariant (add_entry emptyDB "A" "SPY" "CASH" 100 "UBS" "").2
    (by decide) "A" "SPY" "CASH" "UBS" "" 100 200 1 true
  exact h.2.2.1 _ (by decide)

/-- `UPDATE ... WHERE id = ?` commutes with the first-match lookup when the
per-row update preserves `id`. -/
theorem find?_map_ite (l : List Entry) (eid : Nat) (f : Entry → Entry)
    (hf : ∀ e, (f e).id = e.id) :
    (l.map (fun e => if e.id = eid then f e else e)).find? (fun e => e.id = eid) =
      (l.find? (fun e => e.id = eid)).map f := by
  induction l with
  | nil => rfl
  | cons a l ih =>
    by_cases h : a.id = eid
    · simp [List.find?_cons, h, hf a]
    · simp [List.find?_cons, h, ih]

theorem next_status_ne_empty (s : String) : next_status s ≠ "" := by
  unfold next_status
  split_ifs <;> decide

/-- One `cycle_status` call on a present row with a truthy status: the
returned status is `next_status` of the stored one, and the stored row now
carries the new status with the completion fields synchronised. -/
theorem cycle_status_found (db : DB) (eid today : Nat) (e : Entry)
    (hfind : lookup db eid = some e) (hne : e.status ≠ "") :
    (cycle_status db eid today).1 = next_status e.status ∧
    lookup (cycle_status db eid today).2 eid = some
      { e with
          status := next_status e.status
          completed := next_status e.status = "completed"
          completed_date :=
            if next_status e.status = "completed" then some today else none } := by
  unfold lookup at hfind ⊢
  unfold cycle_status
  rw [hfind]
  simp only [if_neg hne]
  refine ⟨trivial, ?_⟩
  exact (find?_map_ite db.entries eid
    (fun x =>
      { x with
          status := next_status e.status
          completed := next_status e.status = "completed"
          completed_date :=
            if next_status e.status = "completed" then some today else none })
    (fun x => rfl)).trans (by rw [hfind]; rfl)

theorem get_entry_status_lookup (db : DB) (eid : Nat) (e : Entry)
    (h : lookup db eid = some e) (hne : e.status ≠ "") :
    get_entry_status db eid = e.status := by
  unfold get_entry_status
  unfold lookup at h
  rw [h]
  exact if_neg hne

/-- C3: `cycle_status` on an existing entry advances the stored status along
`pending → in_progress → completed → pending` and returns the new status;
three applications restore the original stored status, and on a fresh
`pending` entry the three successive return values are `in_progress`,
`completed`, `pending`. -/
theorem C3_cycle (db : DB) (eid t1 t2 t3 : Nat) (e : Entry)
    (hfind : lookup db eid = some e)
    (hst : e.status = "pending" ∨ e.status = "in_progress" ∨ e.status = "completed") :
    (cycle_status db eid t1).1 = next_status e.status ∧
    get_entry_status (cycle_status db eid t1).2 eid = next_status e.status ∧
    get_entry_status
        (cycle_status (cycle_status (cycle_status db eid t1).2 eid t2).2 eid t3).2 eid =
      e.status ∧
    (e.status = "pending" →
      (cycle_status db eid t1).1 = "in_progress" ∧
      (cycle_status (cycle_status db eid t1).2 eid t2).1 = "completed" ∧
      (cycle_status
        (cycle_status (cycle_status db eid t1).2 eid t2).2 eid t3).1 = "pending") := by
  have hne : e.status ≠ "" := by
    rcases hst with h | h | h <;> rw [h] <;> decide
  obtain ⟨hr1, hl1⟩ := cycle_status_found db eid t1 e hfind hne
  obtain ⟨hr2, hl2⟩ :=
    cycle_status_found _ eid t2 _ hl1 (next_status_ne_empty _)
  obtain ⟨hr3, hl3⟩ :=
    cycle_status_found _ eid t3 _ hl2 (next_status_ne_empty _)
  have hcycle : next_status (next_status (next_status e.status)) = e.status := by
    rcases hst with h | h | h <;> rw [h] <;> decide
  refine ⟨hr1, ?_, ?_, ?_⟩
  · exact get_entry_status_lookup _ eid _ hl1 (next_status_ne_empty _)
  · rw [get_entry_status_lookup _ eid _ hl3 (next_status_ne_empty _)]
    exact hcycle
  · intro hp
    refine ⟨hr1.trans (by rw [hp]; decide), hr2.trans ?_, hr3.trans ?_⟩
    · show next_status (next_status e.status) = "completed"
      rw [hp]; decide
    · show next_status (next_status (next_status e.status)) = "pending"
      rw [hp]; decide

/-- Witness for C3: on a freshly created `pending` entry, three cycles return
`in_progress`, `completed`, `pending` and the stored status ends `pending`. -/
theorem C3_cycle_witness :
    (cycle_status (add_entry emptyDB "A" "SPY" "CASH" 100 "UBS" "").2 1 10).1 =
      "in_progress" ∧
    (cycle_status
      (cycle_status (add_entry emptyDB "A" "SPY" "CASH" 100 "UBS" "").2 1 10).2
      1 11).1 = "completed" ∧
    (cycle_status (cycle_status
      (cycle_status (add_entry emptyDB "A" "SPY" "CASH" 100 "UBS" "").2 1 10).2
      1 11).2 1 12).1 = "pending" ∧
    get_entry_status (cycle_status (cycle_status
      (cycle_status (add_entry emptyDB "A" "SPY" "CASH" 100 "UBS" "").2 1 10).2
      1 11).2 1 12).2 1 = "pending" := by
  have h := C3_cycle (add_entry emptyDB "A" "SPY" "CASH" 100 "UBS" "").2 1 10 11 12
    (add_entry_row 1 "A" "SPY" "CASH" 100 "UBS" "") (by decide) (Or.inl rfl)
  have h4 := h.2.2.2 rfl
  exact ⟨h4.1, h4.2.1, h4.2.2, h.2.2.1⟩

theorem map_self_of_eq (l : List Entry) (g : Entry → Entry) (h : ∀ e ∈ l, g e = e) :
    l.map g = l := by
  induction l with
  | nil => rfl
  | cons a l ih =>
    rw [List.map_cons, h a (List.mem_cons_self a l),
      ih (fun e he => h e (List.mem_cons_of_mem a he))]

theorem filter_self_of_true (l : List Entry) (p : Entry → Bool)
    (h : ∀ e ∈ l, p e = true) : l.filter p = l := by
  induction l with
  | nil => rfl
  | cons a l ih =>
    rw [List.filter_cons_of_pos (h a (List.mem_cons_self a l)),
      ih (fun e he => h e (List.mem_cons_of_mem a he))]

/-- C4 counterexample: on the empty store no entry has id 1, yet
`update_entry`, `delete_entry` and `mark_completed` silently succeed leaving
the store unchanged (no error of any kind exists in the code), and
`cycle_status` even returns the status `'in_progress'` as though a pending
entry had been found and advanced. -/
theorem C4_counterexample :
    lookup emptyDB 1 = none ∧
    (cycle_status emptyDB 1 10).1 = "in_progress" ∧
    (cycle_status emptyDB 1 10).2 = emptyDB ∧
    update_entry emptyDB 1 "A" "SPY" "CASH" 100 "UBS" "" = emptyDB ∧
    delete_entry emptyDB 1 = emptyDB ∧
    mark_completed emptyDB 1 true 10 = emptyDB := by decide

/-- C4 (amended): when the referenced id does not exist, `update_entry`,
`delete_entry` and `mark_completed` are silent no-ops (no `NotFoundError` is
raised anywhere in the code), and `cycle_status` treats the missing row as
`'pending'`, returning `'in_progress'` while changing nothing. -/
theorem C4_missing_id_silent (db : DB) (eid today d : Nat)
    (account tickers held_in broker comments : String) (c : Bool)
    (hmiss : lookup db eid = none) :
    update_entry db eid account tickers held_in d broker comments = db ∧
    delete_entry db eid = db ∧
    mark_completed db eid c today = db ∧
    (cycle_status db eid today).1 = "in_progress" ∧
    (cycle_status db eid today).2 = db := by
  unfold lookup at hmiss
  rw [List.find?_eq_none] at hmiss
  have hall : ∀ e ∈ db.entries, ¬ e.id = eid := by
    intro e he
    simpa using hmiss e he
  have hmapid : ∀ (f : Entry → Entry),
      db.entries.map (fun e => if e.id = eid then f e else e) = db.entries := by
    intro f
    exact map_self_of_eq _ _ (fun e he => if_neg (hall e he))
  refine ⟨?_, ?_, ?_, ?_, ?_⟩
  · unfold update_entry
    rw [hmapid]
  · unfold delete_entry
    rw [if_neg (by rw [show foreign_keys_enabled = false from rfl]; exact Bool.false_ne_true),
      filter_self_of_true _ _ (fun e he => by simpa using hall e he)]
  · unfold mark_completed
    rw [hmapid]
  · have hfind : db.entries.find? (fun e => e.id = eid) = none :=
      List.find?_eq_none.mpr hmiss
    simp only [cycle_status, hfind]
    rfl
  · have hfind : db.entries.find? (fun e => e.id = eid) = none :=
      List.find?_eq_none.mpr hmiss
    simp only [cycle_status, hfind]
    rw [hmapid]

/-- Witness for C4's amended theorem at the empty store. -/
theorem C4_missing_id_silent_witness :
    update_entry emptyDB 2 "A" "SPY" "CASH" 100 "UBS" "" = emptyDB ∧
    (cycle_status emptyDB 2 10).1 = "in_progress" := by
  have h := C4_missing_id_silent emptyDB 2 10 100 "A" "SPY" "CASH" "UBS" "" true
    (by decide)
  exact ⟨h.1, h.2.2.2.1⟩

/-- C5 counterexample: the store-level `add_entry` performs no validation at
all: called with every required field blank it still inserts a row (and
raises nothing — it is a total function of the store).  The blank-field
check lives only in the presentation layer (`app_submit`). -/
theorem C5_counterexample :
    (add_entry emptyDB "" "" "" 100 "" "").2.entries.length = 1 ∧
    (add_entry emptyDB "" "" "" 100 "" "").2.entries.map (fun e => e.account) =
      [""] := by decide

/-- C5 (amended): validation happens at the presentation layer, not in the
store.  When `account`, `tickers`, `held_in` or `broker` is the empty string
the form-submit path rejects the create and the store is untouched; when all
four are non-empty it inserts exactly one entry whose `tickers`/`held_in`
are uppercased and whose status fields start `'pending'` / not completed.
The store's `add_entry` itself never validates (see the counterexample). -/
theorem C5_validation (db : DB) (account tickers held_in broker comments : String)
    (d : Nat) :
    (account = "" ∨ tickers = "" ∨ held_in = "" ∨ broker = "" →
      app_submit db account tickers held_in d broker comments = (none, db)) ∧
    (account ≠ "" → tickers ≠ "" → held_in ≠ "" → broker ≠ "" →
      (app_submit db account tickers held_in d broker comments).1 =
        some db.nextEntryId ∧
      (app_submit db account tickers held_in d broker comments).2.entries =
        db.entries ++ [add_entry_row db.nextEntryId (strip account) (strip tickers)
          (strip held_in) d broker (strip comments)]) ∧
    (add_entry_row db.nextEntryId (strip account) (strip tickers) (strip held_in) d
      broker (strip comments)).status = "pending" ∧
    (add_entry_row db.nextEntryId (strip account) (strip tickers) (strip held_in) d
      broker (strip comments)).completed = false ∧
    (add_entry_row db.nextEntryId (strip account) (strip tickers) (strip held_in) d
      broker (strip comments)).tickers = upper (strip tickers) ∧
    (add_entry_row db.nextEntryId (strip account) (strip tickers) (strip held_in) d
      broker (strip comments)).held_in = upper (strip held_in) := by
  refine ⟨?_, ?_, rfl, rfl, rfl, rfl⟩
  · intro h
    unfold app_submit
    rw [if_pos h]
  · intro h1 h2 h3 h4
    unfold app_submit
    rw [if_neg (by simp [h1, h2, h3, h4])]
    exact ⟨rfl, rfl⟩

/-- Witness for C5's amended theorem: a blank account is rejected with the
store untouched, and a fully filled form inserts the normalized row. -/
theorem C5_validation_witness :
    app_submit emptyDB "" "spy" "cash" 100 "UBS" "" = (none, emptyDB) ∧
    (app_submit emptyDB "1234" "spy" "cash" 100 "UBS" "").2.entries =
      [add_entry_row 1 "1234" "spy" "cash" 100 "UBS" ""] := by
  constructor
  · exact (C5_validation emptyDB "" "spy" "cash" "UBS" "" 100).1 (Or.inl rfl)
  · have h := (C5_validation emptyDB "1234" "spy" "cash" "UBS" "" 100).2.1
      (by decide) (by decide) (by decide) (by decide)
    rw [h.2]
    decide

/-- C7: the `ready` filter returns exactly the entries whose stored status is
not `'completed'` and whose `target_date` is on or before today; a
stored-completed entry is never in the result regardless of its date. -/
theorem C7_ready_filter (db : DB) (today : Nat) (e : Entry) :
    (e ∈ get_entries_by_status db today "ready" ↔
      e ∈ db.entries ∧ e.status ≠ "completed" ∧ e.target_date ≤ today) ∧
    (e.status = "completed" → e ∉ get_entries_by_status db today "ready") := by
  have hbranch : get_entries_by_status db today "ready" =
      List.insertionSort tdLe (db.entries.filter
        (fun x => decide (x.status ≠ "completed") && decide (x.target_date ≤ today))) :=
    rfl
  have hmem : e ∈ get_entries_by_status db today "ready" ↔
      e ∈ db.entries ∧ e.status ≠ "completed" ∧ e.target_date ≤ today := by
    rw [hbranch, (List.perm_insertionSort tdLe _).mem_iff, List.mem_filter]
    simp
  refine ⟨hmem, ?_⟩
  intro hc hin
  exact absurd hc (hmem.mp hin).2.1

/-- Witness for C7: a stored-completed entry with a long-past target date is
absent from the `ready` result. -/
theorem C7_ready_filter_witness :
    ({ id := 1, account := "A", tickers := "SPY", held_in := "CASH", broker := "UBS",
       sell_date := 1, target_date := computeTargetDate 1, comments := "",
       completed := true, completed_date := some 50, status := "completed" } : Entry) ∉
      get_entries_by_status
        (mark_completed (add_entry emptyDB "A" "SPY" "CASH" 1 "UBS" "").2 1 true 50)
        100 "ready" :=
  (C7_ready_filter _ 100 _).2 rfl

/-- C6 counterexample: two `pending` entries share a target date but were
inserted with accounts `"B"` then `"A"`; `get_entries_by_status` orders only
by `target_date` (no `account` tie-break in any of its queries), so the tie
stays in rowid order `["B", "A"]`, which is not ascending by account. -/
theorem C6_counterexample :
    ((get_entries_by_status
        (add_entry (add_entry emptyDB "B" "SPY" "CASH" 100 "UBS" "").2
          "A" "SPY" "CASH" 100 "UBS" "").2 150 "pending").map (fun e => e.account)) =
      ["B", "A"] ∧
    ¬ sqlLe "B" "A" := by decide

/-- C6 (amended): `get_entries_by_status` sorts every non-`completed` filter
(`waiting`, `ready`, `pending`, `in_progress`, `all`/default) by
`target_date` ascending only (ties keep rowid order), the `completed` filter
by `completed_date` descending; the separate `get_all_entries` is the one
query that orders by `target_date` then `account`. -/
theorem C6_ordering (db : DB) (today : Nat) (f : String) :
    (f ≠ "completed" → List.Sorted tdLe (get_entries_by_status db today f)) ∧
    List.Sorted cdDescLe (get_entries_by_status db today "completed") ∧
    List.Sorted tdAccLe (get_all_entries db) := by
  refine ⟨?_, ?_, ?_⟩
  · intro hf
    unfold get_entries_by_status
    rw [if_neg hf]
    split_ifs <;> exact List.sorted_insertionSort tdLe _
  · unfold get_entries_by_status
    rw [if_pos rfl]
    exact List.sorted_insertionSort cdDescLe _
  · exact List.sorted_insertionSort tdAccLe _

/-- Witness for C6's amended theorem on a concrete two-entry store. -/
theorem C6_ordering_witness :
    List.Sorted tdLe (get_entries_by_status
      (add_entry (add_entry emptyDB "B" "SPY" "CASH" 100 "UBS" "").2
        "A" "SPY" "CASH" 100 "UBS" "").2 150 "pending") :=
  (C6_ordering (add_entry (add_entry emptyDB "B" "SPY" "CASH" 100 "UBS" "").2
    "A" "SPY" "CASH" 100 "UBS" "").2 150 "pending").1 (by decide)

/-- C8 counterexample: `add_attachment` checks nothing about `entry_id` and
foreign keys are never enabled, so on an empty store it happily creates an
attachment whose `entry_id` (1) belongs to no entry — an orphan creation
path at the store boundary. -/
theorem C8_counterexample :
    emptyDB.entries = [] ∧
    (add_attachment emptyDB 1 "conf.pdf" "application/pdf" [1, 2, 3]).2.entries = [] ∧
    (add_attachment emptyDB 1 "conf.pdf" "application/pdf" [1, 2, 3]).2.attachments.map
      (fun a => a.entry_id) = [1] := by decide

/-- C8 (amended): the store itself does not prevent orphan attachments, but
the application's only attachment-creating path (`app_submit_with_file`)
always passes the id that `add_entry` just returned, so every attachment it
creates references an entry live in the resulting store. -/
theorem C8_app_attachment_live (db : DB)
    (account tickers held_in broker comments filename file_type : String)
    (d : Nat) (file_data : List Nat) :
    ∀ a ∈ (app_submit_with_file db account tickers held_in d broker comments
        filename file_type file_data).2.attachments,
      a ∈ db.attachments ∨
        a.entry_id ∈ (app_submit_with_file db account tickers held_in d broker
          comments filename file_type file_data).2.entries.map (fun e => e.id) := by
  intro a ha
  unfold app_submit_with_file at ha ⊢
  split_ifs at ha ⊢ with h1 h2
  · exact Or.inl ha
  · simp only [add_attachment, add_entry, List.mem_append, List.mem_singleton] at ha
    rcases ha with ha | rfl
    · exact Or.inl ha
    · right
      simp only [add_attachment, add_entry, List.map_append, List.map_cons,
        List.mem_append]
      exact Or.inr (by simp [add_entry_row])
  · exact Or.inl ha

/-- Witness for C8's amended theorem: the attachment created alongside a new
entry references that entry. -/
theorem C8_app_attachment_live_witness :
    ({ id := 1, entry_id := 1, filename := "c.pdf", file_type := "application/pdf",
       file_data := b64encode [5] } : Attachment) ∈ emptyDB.attachments ∨
    (1 : Nat) ∈ (app_submit_with_file emptyDB "A" "SPY" "CASH" 100 "UBS" "" "c.pdf"
      "application/pdf" [5]).2.entries.map (fun e => e.id) :=
  C8_app_attachment_live emptyDB "A" "SPY" "CASH" "UBS" "" "c.pdf" "application/pdf"
    100 [5]
    { id := 1, entry_id := 1, filename := "c.pdf", file_type := "application/pdf",
      file_data := b64encode [5] } (by decide)
